import Mathlib

/-!
Verification development for the chess-v4 realtime multiplayer backend.

The embedding below follows the two backend modules the claims are about:

* `GameState` (models/GameState.js): one two-player chess session with status
  state machine, per-color clocks, move history, resignation, draw offers and
  connection handling.  The third-party chess.js engine is kept abstract as a
  `ChessApi` record of the exact operations GameState calls on it.
* `RoomManager` / `Room` (services/RoomManager.js): room code generation with
  bounded retries, room joining with idempotent rejoin, spectator fallback.

Wall-clock time (`Date.now()` / `new Date()`) is passed explicitly as an
integer millisecond value; JS timer intervals are modelled by a boolean
running-flag per color plus an explicit `tick` step for one interval firing.
-/

namespace ChessV4

/-- Piece color; chess.js reports the side to move as a color. -/
inductive Color : Type
  | white
  | black
deriving DecidableEq, Repr

/-- Opponent color, as computed at several places in GameState.js by the
ternary expression on the color string. -/
def Color.opposite : Color → Color
  | .white => .black
  | .black => .white

/-- Session status string of GameState.js: waiting, playing, paused, finished. -/
inductive Status : Type
  | waiting
  | playing
  | paused
  | finished
deriving DecidableEq, Repr

/-- Game result string of GameState.js (null modelled via `Option`). -/
inductive GameResult : Type
  | whiteWins
  | blackWins
  | draw
deriving DecidableEq, Repr

/-- The result value declaring this color the winner. -/
def Color.winner : Color → GameResult
  | .white => .whiteWins
  | .black => .blackWins

/-- End-reason string of GameState.js (null modelled via `Option`). -/
inductive EndReason : Type
  | checkmate
  | stalemate
  | repetition
  | insufficientMaterial
  | fiftyMoveRule
  | resignation
  | timeout
  | mutualAgreement
deriving DecidableEq, Repr

/-- The error strings returned by GameState.js operations. -/
inductive GameError : Type
  | notPlaying
  | playerNotFound
  | notYourTurn
  | invalidMove
  | noDrawOffer
  | invalidDrawAction
  | needTwoPlayers
deriving DecidableEq, Repr

/-- One entry of `this.players` in GameState.js.  `drawOffered` is absent
(undefined, hence falsy) until `handleDraw` sets it, so it defaults to
`false` here. -/
structure Player : Type where
  id : String
  name : String
  color : Color
  timeRemaining : Int
  connected : Bool
  drawOffered : Bool := false
deriving DecidableEq, Repr

/-- The `this.timers` record: whether a setInterval handle is installed for
each color. -/
structure Timers : Type where
  white : Bool
  black : Bool
deriving DecidableEq, Repr

/-- Read the running flag of one color's timer. -/
def Timers.get : Timers → Color → Bool
  | t, .white => t.white
  | t, .black => t.black

/-- Write the running flag of one color's timer. -/
def Timers.set : Timers → Color → Bool → Timers
  | t, .white, v => { t with white := v }
  | t, .black, v => { t with black := v }

/-- The operations GameState.js calls on the third-party chess.js instance,
kept abstract over the board representation: side to move, move application
(None when chess.js rejects the move), and the terminal-state predicates used
by `checkGameEnd`. -/
structure ChessApi (β : Type) : Type where
  turn : β → Color
  move : β → String → String → Option String → Option β
  isGameOver : β → Bool
  isCheckmate : β → Bool
  isStalemate : β → Bool
  isThreefoldRepetition : β → Bool
  isInsufficientMaterial : β → Bool
  isDraw : β → Bool

/-- One entry of `this.moveHistory` in GameState.js (the fields the claims
touch; the pushed `timeRemaining` is read from the mover object after
`updatePlayerTime` ran). -/
structure MoveRecord (β : Type) : Type where
  fromSq : String
  toSq : String
  playerId : String
  timeTaken : Int
  timeRemaining : Int
  board : β
deriving DecidableEq, Repr

/-- The `this.settings` fields used by the claims (milliseconds). -/
structure Settings : Type where
  initialTime : Int
  increment : Int
deriving DecidableEq, Repr

/-- The GameState.js instance state relevant to the claims. -/
structure GameState (β : Type) : Type where
  chess : β
  settings : Settings
  players : List Player
  moveHistory : List (MoveRecord β)
  status : Status
  result : Option GameResult
  endReason : Option EndReason
  timers : Timers
  lastMoveTime : Int
deriving DecidableEq, Repr

/-- JS `Array.prototype.find` followed by in-place mutation of the found
element: rewrite the first element satisfying the predicate, keep the rest. -/
def updateFirst {α : Type} (pred : α → Bool) (f : α → α) : List α → List α
  | [] => []
  | x :: xs => if pred x then f x :: xs else x :: updateFirst pred f xs

/-- GameState.startTimer: install the interval handle for a color. -/
def startTimer {β : Type} (s : GameState β) (c : Color) : GameState β :=
  { s with timers := s.timers.set c true }

/-- GameState.stopTimer: clear the interval handle for a color. -/
def stopTimer {β : Type} (s : GameState β) (c : Color) : GameState β :=
  { s with timers := s.timers.set c false }

/-- GameState.stopAllTimers. -/
def stopAllTimers {β : Type} (s : GameState β) : GameState β :=
  { s with timers := ⟨false, false⟩ }

/-- GameState.updatePlayerTime: on the first player of the given color,
subtract the elapsed time, add the configured increment, then floor at 0 —
all before any comparison with zero. -/
def updatePlayerTime {β : Type} (s : GameState β) (color : Color) (timeTaken : Int) :
    GameState β :=
  { s with
    players := updateFirst (fun p => p.color == color)
      (fun p =>
        { p with timeRemaining := max 0 (p.timeRemaining - timeTaken + s.settings.increment) })
      s.players }

/-- GameState.checkGameEnd: if chess.js reports game over, finish the game,
stop all timers, and classify result and end reason. -/
def checkGameEnd {β : Type} (api : ChessApi β) (s : GameState β) : GameState β :=
  if api.isGameOver s.chess then
    let s1 : GameState β := { s with status := .finished, timers := ⟨false, false⟩ }
    if api.isCheckmate s.chess then
      { s1 with result := some ((api.turn s.chess).opposite.winner),
                endReason := some .checkmate }
    else if api.isStalemate s.chess then
      { s1 with result := some .draw, endReason := some .stalemate }
    else if api.isThreefoldRepetition s.chess then
      { s1 with result := some .draw, endReason := some .repetition }
    else if api.isInsufficientMaterial s.chess then
      { s1 with result := some .draw, endReason := some .insufficientMaterial }
    else if api.isDraw s.chess then
      { s1 with result := some .draw, endReason := some .fiftyMoveRule }
    else s1
  else s

/-- GameState.makeMove, with the current wall clock passed in as `now`.
Error returns leave the state untouched; the second component is the error
(None on success). -/
def makeMove {β : Type} (api : ChessApi β) (s : GameState β)
    (playerId fromSq toSq : String) (promotion : Option String) (now : Int) :
    GameState β × Option GameError :=
  if s.status ≠ Status.playing then (s, some .notPlaying) else
  match s.players.find? (fun p => p.id == playerId) with
  | none => (s, some .playerNotFound)
  | some player =>
    if api.turn s.chess ≠ player.color then (s, some .notYourTurn) else
    match api.move s.chess fromSq toSq promotion with
    | none => (s, some .invalidMove)
    | some chess2 =>
      let timeTaken := now - s.lastMoveTime
      let s1 : GameState β := { s with chess := chess2 }
      let s2 := updatePlayerTime s1 player.color timeTaken
      let s3 := startTimer (stopTimer s2 player.color) player.color.opposite
      let recordedTime :=
        match s3.players.find? (fun p => p.id == playerId) with
        | some p2 => p2.timeRemaining
        | none => player.timeRemaining
      let s4 : GameState β :=
        { s3 with moveHistory :=
            s3.moveHistory ++ [⟨fromSq, toSq, playerId, timeTaken, recordedTime, chess2⟩] }
      let s5 : GameState β := { s4 with lastMoveTime := now }
      (checkGameEnd api s5, none)

/-- GameState.resign: only the player lookup can fail; no status check. -/
def resign {β : Type} (s : GameState β) (playerId : String) :
    GameState β × Option GameError :=
  match s.players.find? (fun p => p.id == playerId) with
  | none => (s, some .playerNotFound)
  | some player =>
    (stopAllTimers
      { s with status := .finished,
               result := some player.color.opposite.winner,
               endReason := some .resignation }, none)

/-- The draw action string: offer, accept, or anything else. -/
inductive DrawAction : Type
  | offer
  | accept
  | invalid
deriving DecidableEq, Repr

/-- GameState.handleDraw. -/
def handleDraw {β : Type} (s : GameState β) (playerId : String) (action : DrawAction) :
    GameState β × Option GameError :=
  match s.players.find? (fun p => p.id == playerId) with
  | none => (s, some .playerNotFound)
  | some _ =>
    match action with
    | .offer =>
      ({ s with
          players := updateFirst (fun p => p.id == playerId)
            (fun p => { p with drawOffered := true }) s.players }, none)
    | .accept =>
      match s.players.find? (fun p => p.id != playerId) with
      | none => (s, some .noDrawOffer)
      | some opponent =>
        if opponent.drawOffered then
          (stopAllTimers
            { s with status := .finished, result := some .draw,
                     endReason := some .mutualAgreement }, none)
        else (s, some .noDrawOffer)
    | .invalid => (s, some .invalidDrawAction)

/-- GameState.pauseTimers: stop all timers and mark the session paused. -/
def pauseTimers {β : Type} (s : GameState β) : GameState β :=
  { s with status := .paused, timers := ⟨false, false⟩ }

/-- GameState.resumeTimers: acts only from paused; restarts the clock of the
side to move. -/
def resumeTimers {β : Type} (api : ChessApi β) (s : GameState β) : GameState β :=
  if s.status = Status.paused then
    startTimer { s with status := .playing } (api.turn s.chess)
  else s

/-- GameState.updatePlayerConnection: set the connected flag of the player,
then pause when a player disconnected during playing, or call `resumeTimers`
when one connected during playing. -/
def updatePlayerConnection {β : Type} (api : ChessApi β) (s : GameState β)
    (playerId : String) (connected : Bool) : GameState β :=
  match s.players.find? (fun p => p.id == playerId) with
  | none => s
  | some _ =>
    let s1 : GameState β :=
      { s with
          players := updateFirst (fun p => p.id == playerId)
            (fun p => { p with connected := connected }) s.players }
    if !connected && s1.status == Status.playing then pauseTimers s1
    else if connected && s1.status == Status.playing then resumeTimers api s1
    else s1

/-- GameState.handleTimeOut: the color that ran out of time loses. -/
def handleTimeOut {β : Type} (s : GameState β) (color : Color) : GameState β :=
  stopAllTimers
    { s with status := .finished, result := some color.opposite.winner,
             endReason := some .timeout }

/-- One firing of the 100ms interval installed by GameState.startTimer for a
color: only possible while the handle is installed; decrements by 100 and on
reaching (or crossing) zero clamps to 0 and calls `handleTimeOut`. -/
def tick {β : Type} (s : GameState β) (color : Color) : GameState β :=
  if s.timers.get color then
    match s.players.find? (fun p => p.color == color) with
    | none => s
    | some p =>
      if p.timeRemaining > 0 then
        if p.timeRemaining - 100 ≤ 0 then
          handleTimeOut
            { s with
                players := updateFirst (fun q => q.color == color)
                  (fun q => { q with timeRemaining := 0 }) s.players } color
        else
          { s with
              players := updateFirst (fun q => q.color == color)
                (fun q => { q with timeRemaining := p.timeRemaining - 100 }) s.players }
      else s
  else s

/-- GameState.startGame: requires exactly two players; sets playing and
starts white's clock. -/
def startGame {β : Type} (s : GameState β) (now : Int) :
    GameState β × Option GameError :=
  if s.players.length ≠ 2 then (s, some .needTwoPlayers)
  else (startTimer { s with status := .playing, lastMoveTime := now } .white, none)

/-- A minimal instantiation of the chess.js black box for concrete runs: the
board is just the side to move, every move is legal and flips the turn, and
no terminal condition ever triggers. -/
def trivApi : ChessApi Color where
  turn := fun c => c
  move := fun c _ _ _ => some c.opposite
  isGameOver := fun _ => false
  isCheckmate := fun _ => false
  isStalemate := fun _ => false
  isThreefoldRepetition := fun _ => false
  isInsufficientMaterial := fun _ => false
  isDraw := fun _ => false

/-- The letter alphabet of RoomManager.generateRoomCode. -/
def roomLetters : List Char := "ABCDEFGHIJKLMNOPQRSTUVWXYZ".data

/-- The digit alphabet of RoomManager.generateRoomCode. -/
def roomDigits : List Char := "0123456789".data

/-- The outcome of the four Math.floor(Math.random() * n) draws one call to
generateRoomCode makes: two letter indices below 26, two digit indices
below 10. -/
structure RandPick : Type where
  l1 : Fin 26
  l2 : Fin 26
  d1 : Fin 10
  d2 : Fin 10

/-- RoomManager.generateRoomCode applied to one quadruple of random draws:
two letters followed by two digits. -/
def generateRoomCode (r : RandPick) : String :=
  ⟨[roomLetters.getD r.l1.val 'A', roomLetters.getD r.l2.val 'A',
    roomDigits.getD r.d1.val '0', roomDigits.getD r.d2.val '0']⟩

/-- The room-code pattern of the spec: two uppercase letters then two
digits. -/
def isValidRoomCode (s : String) : Bool :=
  match s.data with
  | [c1, c2, c3, c4] =>
    decide ('A' ≤ c1 ∧ c1 ≤ 'Z') && decide ('A' ≤ c2 ∧ c2 ≤ 'Z') &&
    decide ('0' ≤ c3 ∧ c3 ≤ '9') && decide ('0' ≤ c4 ∧ c4 ≤ '9')
  | _ => false

/-- The single error createRoom can signal from code generation. -/
inductive CreateError : Type
  | codeGenerationExhausted
deriving DecidableEq, Repr

/-- The retry bound maxAttempts of RoomManager.createRoom. -/
def maxAttempts : Nat := 10

/-- The while loop of RoomManager.createRoom, driven by the stream `g` of
successive generateRoomCode results; the fuel argument equals
maxAttempts minus the current attempts counter, which makes the fuel-out
exit coincide with the loop guard attempts < maxAttempts. Returns the
final code together with the final attempts counter. -/
def genLoop (rooms : List String) (g : Nat → String) :
    String → Nat → Nat → String × Nat
  | code, attempts, 0 => (code, attempts)
  | code, attempts, fuel + 1 =>
    if rooms.contains code then genLoop rooms g (g (attempts + 1)) (attempts + 1) fuel
    else (code, attempts)

/-- RoomManager.createRoom restricted to the collision-checked code
generation and registration of the new code among the live ones: `rooms` is
the key set of the live-room map, `g n` the code produced by the n-th call
to generateRoomCode. -/
def createRoom (rooms : List String) (g : Nat → String) :
    Except CreateError (String × List String) :=
  let r := genLoop rooms g (g 0) 0 maxAttempts
  if maxAttempts ≤ r.2 then .error .codeGenerationExhausted
  else .ok (r.1, r.1 :: rooms)

/-- Room status string of RoomManager.js. -/
inductive RoomStatus : Type
  | waiting
  | ready
  | playing
  | abandoned
deriving DecidableEq, Repr

/-- One value of the Room.players map. -/
structure RoomPlayer : Type where
  id : String
  name : String
  color : Color
  ready : Bool
deriving DecidableEq, Repr

/-- The Room fields the claims touch.  The JS players/spectators Maps are
insertion-ordered association structures with unique keys, modelled as lists
in insertion order (Map.set of a fresh key appends). -/
structure Room : Type where
  code : String
  lastActivity : Int
  expirationTime : Int
  players : List RoomPlayer
  spectators : List String
  maxPlayers : Nat
  status : RoomStatus
deriving DecidableEq, Repr

/-- Role string in a join result. -/
inductive Role : Type
  | player
  | spectator
deriving DecidableEq, Repr

/-- The success payload of Room.addPlayer (color present only for the
player role). -/
structure JoinResult : Type where
  role : Role
  color : Option Color
deriving DecidableEq, Repr

/-- Room.updateActivity with the wall clock passed in. -/
def Room.updateActivity (r : Room) (now : Int) : Room :=
  { r with lastActivity := now }

/-- Room.isExpired with the wall clock passed in. -/
def Room.isExpired (r : Room) (now : Int) : Bool :=
  decide (r.expirationTime < now - r.lastActivity)

/-- Room.addPlayer: idempotent rejoin for a known player or spectator,
explicit spectator join, spectator fallback when the room is full, and
otherwise the next player slot with white for the first seat and black for
the second, flipping the status to ready when the room fills. -/
def Room.addPlayer (r0 : Room) (pid nm : String) (isSpectator : Bool) (now : Int) :
    Room × JoinResult :=
  let r := r0.updateActivity now
  match r.players.find? (fun p => p.id == pid) with
  | some existing => (r, ⟨.player, some existing.color⟩)
  | none =>
    if r.spectators.contains pid then (r, ⟨.spectator, none⟩)
    else if isSpectator then
      ({ r with spectators := r.spectators ++ [pid] }, ⟨.spectator, none⟩)
    else if r.maxPlayers ≤ r.players.length then
      ({ r with spectators := r.spectators ++ [pid] }, ⟨.spectator, none⟩)
    else
      let color := if r.players.length == 0 then Color.white else Color.black
      let r2 : Room := { r with players := r.players ++ [⟨pid, nm, color, false⟩] }
      let r3 : Room :=
        if r2.players.length == r2.maxPlayers then { r2 with status := .ready } else r2
      (r3, ⟨.player, some color⟩)

/-- Errors of RoomManager.joinRoom. -/
inductive JoinError : Type
  | roomNotFound
  | roomExpired
deriving DecidableEq, Repr

/-- Lookup in the live-room map (keyed by code). -/
def lookupRoom (rooms : List (String × Room)) (code : String) : Option Room :=
  (rooms.find? (fun kr => kr.1 == code)).map (fun kr => kr.2)

/-- In-place mutation of the room stored under a code. -/
def setRoom (rooms : List (String × Room)) (code : String) (r : Room) :
    List (String × Room) :=
  rooms.map (fun kr => if kr.1 == code then (kr.1, r) else kr)

/-- RoomManager.removeRoom restricted to the room map itself. -/
def removeRoom (rooms : List (String × Room)) (code : String) :
    List (String × Room) :=
  rooms.filter (fun kr => kr.1 != code)

/-- The toUpperCase canonicalization of a submitted room code
(character-wise uppercase). -/
def toUpperCode (s : String) : String :=
  ⟨s.data.map Char.toUpper⟩

/-- RoomManager.joinRoom: canonicalize the code, look the room up, drop it
when expired, otherwise delegate to Room.addPlayer and store the mutated
room.  Returns the updated room map and the call result. -/
def joinRoom (rooms : List (String × Room)) (code pid nm : String)
    (isSpectator : Bool) (now : Int) :
    List (String × Room) × Except JoinError JoinResult :=
  match lookupRoom rooms (toUpperCode code) with
  | none => (rooms, .error .roomNotFound)
  | some room =>
    if room.isExpired now then (removeRoom rooms (toUpperCode code), .error .roomExpired)
    else
      (setRoom rooms (toUpperCode code) (room.addPlayer pid nm isSpectator now).1,
       .ok (room.addPlayer pid nm isSpectator now).2)

/-- Concrete white-seat player for witnesses. -/
def pA : Player :=
  { id := "a", name := "Alice", color := .white, timeRemaining := 300000, connected := true }

/-- Concrete black-seat player for witnesses. -/
def pB : Player :=
  { id := "b", name := "Bob", color := .black, timeRemaining := 300000, connected := true }

/-- Concrete in-progress session (white to move, white clock running). -/
def basePlaying : GameState Color :=
  { chess := .white, settings := { initialTime := 300000, increment := 5000 },
    players := [pA, pB], moveHistory := [], status := .playing,
    result := none, endReason := none, timers := ⟨true, false⟩, lastMoveTime := 0 }

/-- Concrete finished session (white won by checkmate). -/
def baseFinished : GameState Color :=
  { basePlaying with status := .finished, result := some .whiteWins,
                     endReason := some .checkmate, timers := ⟨false, false⟩ }

/-- Concrete session still waiting to start. -/
def baseWaiting : GameState Color :=
  { basePlaying with status := .waiting, timers := ⟨false, false⟩ }

/-- Rewriting the first matching element leaves any map invariant that the
rewrite respects. -/
theorem updateFirst_map_eq {α γ : Type} (pred : α → Bool) (f : α → α) (g : α → γ)
    (hf : ∀ a, g (f a) = g a) :
    ∀ l : List α, (updateFirst pred f l).map g = l.map g := by
  intro l
  induction l with
  | nil => rfl
  | cons x xs ih =>
    by_cases hx : pred x = true
    · simp [updateFirst, hx, hf]
    · simp [updateFirst, hx, ih]

/-- Finding by the rewritten predicate after `updateFirst` returns the
rewritten first match, provided the rewrite preserves the predicate. -/
theorem find?_updateFirst {α : Type} (pred : α → Bool) (f : α → α)
    (hf : ∀ a, pred a = true → pred (f a) = true) :
    ∀ l : List α, (updateFirst pred f l).find? pred = (l.find? pred).map f := by
  intro l
  induction l with
  | nil => rfl
  | cons x xs ih =>
    by_cases hx : pred x = true
    · simp [updateFirst, hx, List.find?, hf x hx]
    · simp [updateFirst, hx, List.find?, ih]

/-- checkGameEnd never touches the player list. -/
theorem checkGameEnd_players {β : Type} (api : ChessApi β) (s : GameState β) :
    (checkGameEnd api s).players = s.players := by
  unfold checkGameEnd
  split
  · split
    · rfl
    · split
      · rfl
      · split
        · rfl
        · split
          · rfl
          · split
            · rfl
            · rfl
  · rfl

/-- Claim C3 (confirmed): while the session is playing, a move attempt by a
player whose color is not the side to move fails with the not-your-turn
error and returns the state unchanged. -/
theorem makeMove_notYourTurn_unchanged {β : Type} (api : ChessApi β) (s : GameState β)
    (pid f t : String) (pr : Option String) (now : Int) (p : Player)
    (hs : s.status = Status.playing)
    (hp : s.players.find? (fun q => q.id == pid) = some p)
    (ht : api.turn s.chess ≠ p.color) :
    makeMove api s pid f t pr now = (s, some .notYourTurn) := by
  unfold makeMove
  rw [hs, hp]
  simp [ht]

/-- Witness for C3: in the concrete playing session with white to move, a
move attempt by the black player is rejected without touching the state. -/
theorem makeMove_notYourTurn_unchanged_witness :
    makeMove trivApi basePlaying "b" "e7" "e5" none 1000
      = (basePlaying, some .notYourTurn) :=
  makeMove_notYourTurn_unchanged trivApi basePlaying "b" "e7" "e5" none 1000 pB
    rfl (by decide) (by decide)

/-- Counterexample to claim C1: finished is not terminal.  In a session
already finished by checkmate with result white, a resignation by the white
player is still accepted and overwrites both the result and the end
reason. -/
theorem finished_not_terminal_for_resign :
    baseFinished.status = Status.finished
      ∧ baseFinished.result = some .whiteWins
      ∧ baseFinished.endReason = some .checkmate
      ∧ (resign baseFinished "a").2 = none
      ∧ (resign baseFinished "a").1.result = some .blackWins
      ∧ (resign baseFinished "a").1.endReason = some .resignation := by
  decide

/-- Claim C1 as amended (the code guards only makeMove and the interval
callbacks by status): once finished, makeMove is rejected with the
not-playing error and leaves the state unchanged, and a clock tick changes
nothing while both interval handles are cleared (as every transition to
finished clears them); resign and handleDraw carry no status guard. -/
theorem finished_rejects_moves_and_ticks {β : Type} (api : ChessApi β) (s : GameState β)
    (pid f t : String) (pr : Option String) (now : Int) (c : Color)
    (hs : s.status = Status.finished) :
    makeMove api s pid f t pr now = (s, some .notPlaying)
      ∧ (s.timers = ⟨false, false⟩ → tick s c = s) := by
  constructor
  · unfold makeMove
    rw [hs]
    simp
  · intro htm
    cases c with
    | white => simp [tick, htm, Timers.get]
    | black => simp [tick, htm, Timers.get]

/-- Witness for the amended C1 at the concrete finished session. -/
theorem finished_rejects_moves_and_ticks_witness :
    makeMove trivApi baseFinished "a" "e2" "e4" none 1000
        = (baseFinished, some .notPlaying)
      ∧ tick baseFinished Color.white = baseFinished := by
  have h := finished_rejects_moves_and_ticks trivApi baseFinished "a" "e2" "e4" none 1000
    Color.white rfl
  exact ⟨h.1, h.2 rfl⟩

/-- Counterexample to claim C6: resign does not fail when the session is not
playing — in the concrete waiting session the resignation of the white
player succeeds. -/
theorem resign_succeeds_when_not_playing :
    baseWaiting.status ≠ Status.playing ∧ (resign baseWaiting "a").2 = none := by
  decide

/-- Claim C6 as amended: resign fails exactly when the identity is not a
player; otherwise — regardless of status or board — it declares the
opposite color the winner with end-reason resignation, sets status finished
and clears both timer handles, leaving all other fields unchanged. -/
theorem resign_spec {β : Type} (s : GameState β) (pid : String) :
    (∀ p, s.players.find? (fun q => q.id == pid) = some p →
        resign s pid
          = ({ s with status := .finished,
                      result := some p.color.opposite.winner,
                      endReason := some .resignation,
                      timers := ⟨false, false⟩ }, none))
      ∧ (s.players.find? (fun q => q.id == pid) = none →
          resign s pid = (s, some .playerNotFound)) := by
  constructor
  · intro p hp
    unfold resign
    rw [hp]
    rfl
  · intro hp
    unfold resign
    rw [hp]

/-- Witness for the amended C6: the success case at the concrete waiting
session and the failure case for an identity that is not a player. -/
theorem resign_spec_witness :
    resign baseWaiting "a"
        = ({ baseWaiting with status := .finished,
                              result := some Color.white.opposite.winner,
                              endReason := some .resignation,
                              timers := ⟨false, false⟩ }, none)
      ∧ resign baseWaiting "zz" = (baseWaiting, some .playerNotFound) :=
  ⟨(resign_spec baseWaiting "a").1 pA (by decide),
   (resign_spec baseWaiting "zz").2 (by decide)⟩

/-- Claim C7 (confirmed, for an identity that is a player): accepting a draw
succeeds exactly when the first other player holds an outstanding draw
offer, in which case the session finishes as a draw by mutual agreement
with both timer handles cleared; otherwise it fails with the no-draw-offer
error and the state — in particular the status — is unchanged. -/
theorem handleDraw_accept_spec {β : Type} (s : GameState β) (pid : String) (p : Player)
    (hp : s.players.find? (fun q => q.id == pid) = some p) :
    (∀ opp, s.players.find? (fun q => q.id != pid) = some opp →
        (opp.drawOffered = true →
          handleDraw s pid .accept
            = ({ s with status := .finished, result := some .draw,
                        endReason := some .mutualAgreement,
                        timers := ⟨false, false⟩ }, none))
          ∧ (opp.drawOffered = false →
              handleDraw s pid .accept = (s, some .noDrawOffer)))
      ∧ (s.players.find? (fun q => q.id != pid) = none →
          handleDraw s pid .accept = (s, some .noDrawOffer)) := by
  constructor
  · intro opp hopp
    constructor
    · intro hoff
      unfold handleDraw
      rw [hp, hopp]
      simp [hoff]
      rfl
    · intro hoff
      unfold handleDraw
      rw [hp, hopp]
      simp [hoff]
  · intro hnone
    unfold handleDraw
    rw [hp, hnone]

/-- Concrete session in which white has already offered a draw. -/
def baseOffered : GameState Color :=
  { basePlaying with players := [{ pA with drawOffered := true }, pB] }

/-- Witness for C7: with white's offer outstanding, black's accept finishes
the game as a draw by mutual agreement; without any offer, black's accept
fails with the no-draw-offer error and the state is unchanged. -/
theorem handleDraw_accept_spec_witness :
    handleDraw baseOffered "b" .accept
        = ({ baseOffered with status := .finished, result := some .draw,
                              endReason := some .mutualAgreement,
                              timers := ⟨false, false⟩ }, none)
      ∧ handleDraw basePlaying "b" .accept = (basePlaying, some .noDrawOffer) :=
  ⟨(((handleDraw_accept_spec baseOffered "b" pB (by decide)).1
      { pA with drawOffered := true } (by decide)).1 rfl),
   (((handleDraw_accept_spec basePlaying "b" pB (by decide)).1 pA (by decide)).2 rfl)⟩

/-- Claim C4, code behavior at the failing input: in the concrete playing
session, disconnecting the white player pauses the session and clears both
timer handles as claimed, but the subsequent reconnection — after which
every player is connected again — leaves the status paused and both timer
handles cleared: the reconnect branch of updatePlayerConnection requires
status playing while resumeTimers acts only from status paused, so the
session never resumes. -/
theorem reconnect_does_not_resume :
    ((updatePlayerConnection trivApi basePlaying "a" false).status = Status.paused
        ∧ (updatePlayerConnection trivApi basePlaying "a" false).timers = ⟨false, false⟩)
      ∧ ((updatePlayerConnection trivApi
            (updatePlayerConnection trivApi basePlaying "a" false) "a" true).status
            = Status.paused
          ∧ (updatePlayerConnection trivApi
              (updatePlayerConnection trivApi basePlaying "a" false) "a" true).timers
              = ⟨false, false⟩
          ∧ ∀ p ∈ (updatePlayerConnection trivApi
              (updatePlayerConnection trivApi basePlaying "a" false) "a" true).players,
              p.connected = true) := by
  decide

/-- Concrete playing session where white has only 100 ms left. -/
def baseLowTime : GameState Color :=
  { basePlaying with players := [{ pA with timeRemaining := 100 }, pB] }

/-- Counterexample to claim C5: in the concrete session where white has
100 ms left, a successful move after 200 ms of elapsed wall-clock time — so
the claimed floored subtraction max(0, 100 - 200) reaches 0 and, per the
claim, expiry should finish the session by timeout — instead leaves white
with 4900 ms and the session still playing: the code adds the 5000 ms
increment before the zero-floor and signals no expiry. -/
theorem increment_rescues_zero_clock :
    ((100 : Int) - 200 ≤ 0)
      ∧ (makeMove trivApi baseLowTime "a" "e2" "e4" none 200).2 = none
      ∧ (makeMove trivApi baseLowTime "a" "e2" "e4" none 200).1.players.map
          (fun p => p.timeRemaining) = [4900, 300000]
      ∧ (makeMove trivApi baseLowTime "a" "e2" "e4" none 200).1.status
          = Status.playing
      ∧ (makeMove trivApi baseLowTime "a" "e2" "e4" none 200).1.endReason = none := by
  decide

/-- Claim C5 as amended: updatePlayerTime updates only the clock of the
given color to max(0, remaining - elapsed + increment) — the increment
participates before the zero-floor, so it can rescue a clock whose floored
subtraction reached zero — and it signals no expiry (status, result and end
reason are untouched); timeout is detected only by the 100 ms interval
tick, which on reaching zero finishes the session with end-reason timeout
and the opposite color as result. -/
theorem updatePlayerTime_floor_and_tick_timeout {β : Type} (s : GameState β)
    (c : Color) (e : Int) (p : Player)
    (hp : s.players.find? (fun q => q.color == c) = some p) :
    ((updatePlayerTime s c e).players.find? (fun q => q.color == c)).map
        (fun q => q.timeRemaining)
        = some (max 0 (p.timeRemaining - e + s.settings.increment))
      ∧ (updatePlayerTime s c e).status = s.status
      ∧ (updatePlayerTime s c e).result = s.result
      ∧ (updatePlayerTime s c e).endReason = s.endReason
      ∧ (s.timers.get c = true → 0 < p.timeRemaining → p.timeRemaining - 100 ≤ 0 →
          (tick s c).status = Status.finished
            ∧ (tick s c).endReason = some .timeout
            ∧ (tick s c).result = some c.opposite.winner) := by
  refine ⟨?_, rfl, rfl, rfl, ?_⟩
  · have hfind := find?_updateFirst (fun q => q.color == c)
      (fun q =>
        { q with timeRemaining := max 0 (q.timeRemaining - e + s.settings.increment) })
      (by intro a ha; exact ha) s.players
    unfold updatePlayerTime
    rw [hfind, hp]
    rfl
  · intro htm hpos hzero
    unfold tick
    rw [htm, hp]
    simp [hpos, hzero, handleTimeOut, stopAllTimers]

/-- Witness for the amended C5: at the concrete low-time session,
updatePlayerTime with 200 ms elapsed leaves white 4900 ms without touching
status, result or end reason, and a tick of white's running clock finishes
the session by timeout in black's favor. -/
theorem updatePlayerTime_floor_and_tick_timeout_witness :
    ((updatePlayerTime baseLowTime Color.white 200).players.find?
        (fun q => q.color == Color.white)).map (fun q => q.timeRemaining)
        = some (max 0 ((100 : Int) - 200 + 5000))
      ∧ (updatePlayerTime baseLowTime Color.white 200).status = baseLowTime.status
      ∧ (tick baseLowTime Color.white).status = Status.finished
      ∧ (tick baseLowTime Color.white).endReason = some .timeout
      ∧ (tick baseLowTime Color.white).result = some Color.white.opposite.winner := by
  have h := updatePlayerTime_floor_and_tick_timeout baseLowTime Color.white 200
    { pA with timeRemaining := 100 } (by decide)
  have h5 := h.2.2.2.2 rfl (by decide) (by decide)
  exact ⟨h.1, h.2.1, h5.1, h5.2.1, h5.2.2⟩

/-- Claim C2 (confirmed): in a two-seat session (white seat first, black
seat second, as the constructor assigns them), every successful makeMove
leaves the mover's clock at max(0, remaining - elapsed + increment) where
elapsed is the wall clock minus the last-move timestamp, and leaves the
other player's clock untouched. -/
theorem makeMove_clock_update {β : Type} (api : ChessApi β) (s : GameState β)
    (w b : Player) (pid f t : String) (pr : Option String) (now : Int)
    (s2 : GameState β)
    (hps : s.players = [w, b]) (hw : w.color = .white) (hb : b.color = .black)
    (h : makeMove api s pid f t pr now = (s2, none)) :
    (pid = w.id ∧ s2.players.map (fun p => p.timeRemaining)
        = [max 0 (w.timeRemaining - (now - s.lastMoveTime) + s.settings.increment),
           b.timeRemaining])
      ∨ (pid = b.id ∧ s2.players.map (fun p => p.timeRemaining)
          = [w.timeRemaining,
             max 0 (b.timeRemaining - (now - s.lastMoveTime) + s.settings.increment)]) := by
  by_cases hst : s.status = Status.playing
  · by_cases hw1 : (w.id == pid) = true
    · have hfind : s.players.find? (fun p => p.id == pid) = some w := by
        rw [hps]; simp [List.find?, hw1]
      by_cases ht : api.turn s.chess = w.color
      · cases hm : api.move s.chess f t pr with
        | none =>
          unfold makeMove at h
          rw [hfind, hm] at h
          simp [hst, ht] at h
        | some c2 =>
          unfold makeMove at h
          rw [hfind, hm] at h
          simp [hst, ht] at h
          left
          refine ⟨(beq_iff_eq.mp hw1).symm, ?_⟩
          subst h
          rw [checkGameEnd_players]
          simp [startTimer, stopTimer, updatePlayerTime, hps, updateFirst]
      · unfold makeMove at h
        rw [hfind] at h
        simp [hst, ht] at h
    · by_cases hb1 : (b.id == pid) = true
      · have hfind : s.players.find? (fun p => p.id == pid) = some b := by
          rw [hps]; simp [List.find?, hw1, hb1]
        by_cases ht : api.turn s.chess = b.color
        · cases hm : api.move s.chess f t pr with
          | none =>
            unfold makeMove at h
            rw [hfind, hm] at h
            simp [hst, ht] at h
          | some c2 =>
            unfold makeMove at h
            rw [hfind, hm] at h
            simp [hst, ht] at h
            right
            refine ⟨(beq_iff_eq.mp hb1).symm, ?_⟩
            subst h
            rw [checkGameEnd_players]
            have hcb : ((fun p => p.color == b.color) w) = false := by
              simp [hw, hb]
            simp [startTimer, stopTimer, updatePlayerTime, hps, updateFirst, hcb]
        · unfold makeMove at h
          rw [hfind] at h
          simp [hst, ht] at h
      · have hfind : s.players.find? (fun p => p.id == pid) = none := by
          rw [hps]; simp [List.find?, hw1, hb1]
        unfold makeMove at h
        rw [hfind] at h
        simp [hst] at h
  · simp [makeMove, hst] at h

/-- Witness for C2: white's successful opening move at wall clock 1000 in
the concrete session leaves the clocks at the claimed values. -/
theorem makeMove_clock_update_witness :
    ("a" = pA.id ∧ (makeMove trivApi basePlaying "a" "e2" "e4" none 1000).1.players.map
        (fun p => p.timeRemaining)
        = [max 0 (pA.timeRemaining - (1000 - basePlaying.lastMoveTime)
              + basePlaying.settings.increment),
           pB.timeRemaining])
      ∨ ("a" = pB.id ∧ (makeMove trivApi basePlaying "a" "e2" "e4" none 1000).1.players.map
          (fun p => p.timeRemaining)
          = [pA.timeRemaining,
             max 0 (pB.timeRemaining - (1000 - basePlaying.lastMoveTime)
                + basePlaying.settings.increment)]) :=
  makeMove_clock_update trivApi basePlaying pA pB "a" "e2" "e4" none 1000
    (makeMove trivApi basePlaying "a" "e2" "e4" none 1000).1 rfl rfl rfl (by decide)

/-- makeMove never changes which players are present nor their pending
draw-offer flags: the only player rewrite it performs is the clock update. -/
theorem makeMove_players_key {β : Type} (api : ChessApi β) (s : GameState β)
    (pid f t : String) (pr : Option String) (now : Int) :
    (makeMove api s pid f t pr now).1.players.map (fun p => (p.id, p.drawOffered))
      = s.players.map (fun p => (p.id, p.drawOffered)) := by
  unfold makeMove
  split
  · rfl
  · split
    · rfl
    · split
      · rfl
      · split
        · rfl
        · rw [checkGameEnd_players]
          simp only [startTimer, stopTimer, updatePlayerTime]
          apply updateFirst_map_eq
          intro a
          rfl

/-- A makeMove request: mover identity, squares, promotion, wall clock. -/
structure MoveCmd : Type where
  pid : String
  fromSq : String
  toSq : String
  promotion : Option String
  now : Int

/-- Apply a sequence of makeMove requests in order, each starting from the
state the previous one left behind (rejected requests leave the state
untouched). -/
def applyMoves {β : Type} (api : ChessApi β) : GameState β → List MoveCmd → GameState β
  | s, [] => s
  | s, m :: ms => applyMoves api (makeMove api s m.pid m.fromSq m.toSq m.promotion m.now).1 ms

/-- Any sequence of makeMove requests preserves player identities and
pending draw-offer flags. -/
theorem applyMoves_players_key {β : Type} (api : ChessApi β) (s : GameState β)
    (ms : List MoveCmd) :
    (applyMoves api s ms).players.map (fun p => (p.id, p.drawOffered))
      = s.players.map (fun p => (p.id, p.drawOffered)) := by
  induction ms generalizing s with
  | nil => rfl
  | cons m ms ih =>
    rw [applyMoves, ih, makeMove_players_key]

/-- Claim C10 (confirmed): once the first-seat player holds a pending draw
offer, no sequence of makeMove requests clears it, so an accept by the
other player still succeeds afterwards and finishes the session as a draw
by mutual agreement. -/
theorem drawOffer_persists_across_moves {β : Type} (api : ChessApi β) (s : GameState β)
    (a b : Player) (ms : List MoveCmd)
    (hps : s.players = [a, b]) (hoff : a.drawOffered = true) (hne : a.id ≠ b.id) :
    (handleDraw (applyMoves api s ms) b.id .accept).2 = none
      ∧ (handleDraw (applyMoves api s ms) b.id .accept).1.status = Status.finished
      ∧ (handleDraw (applyMoves api s ms) b.id .accept).1.result = some .draw
      ∧ (handleDraw (applyMoves api s ms) b.id .accept).1.endReason
          = some .mutualAgreement := by
  have hkey := applyMoves_players_key api s ms
  rw [hps] at hkey
  cases hl : (applyMoves api s ms).players with
  | nil => rw [hl] at hkey; exact absurd hkey (by simp)
  | cons a2 l2 =>
    cases l2 with
    | nil => rw [hl] at hkey; exact absurd hkey (by simp)
    | cons b2 l3 =>
      cases l3 with
      | cons c2 l4 => rw [hl] at hkey; exact absurd hkey (by simp)
      | nil =>
        rw [hl] at hkey
        simp only [List.map_cons, List.map_nil, List.cons.injEq, Prod.mk.injEq] at hkey
        obtain ⟨⟨ha2id, ha2off⟩, ⟨hb2id, hb2off⟩, -⟩ := hkey
        have hfa : (a2.id == b.id) = false := by
          rw [ha2id]
          exact beq_eq_false_iff_ne.mpr hne
        have hfb : (b2.id == b.id) = true := by rw [hb2id]; exact beq_self_eq_true b.id
        have hfind1 : (applyMoves api s ms).players.find? (fun q => q.id == b.id)
            = some b2 := by
          rw [hl]; simp [List.find?, hfa, hfb]
        have hfind2 : (applyMoves api s ms).players.find? (fun q => q.id != b.id)
            = some a2 := by
          rw [hl]; simp [List.find?, bne, hfa]
        unfold handleDraw
        rw [hfind1, hfind2]
        simp [hoff ▸ ha2off, stopAllTimers]

/-- Witness for C10: in the concrete session where white offered a draw, two
successful moves later black's accept still finishes the game as a draw by
mutual agreement. -/
theorem drawOffer_persists_across_moves_witness :
    (handleDraw (applyMoves trivApi baseOffered
        [⟨"a", "e2", "e4", none, 1000⟩, ⟨"b", "e7", "e5", none, 2000⟩]) "b" .accept).2
        = none
      ∧ (handleDraw (applyMoves trivApi baseOffered
          [⟨"a", "e2", "e4", none, 1000⟩, ⟨"b", "e7", "e5", none, 2000⟩]) "b" .accept).1.status
          = Status.finished :=
  let h := drawOffer_persists_across_moves trivApi baseOffered
    { pA with drawOffered := true } pB
    [⟨"a", "e2", "e4", none, 1000⟩, ⟨"b", "e7", "e5", none, 2000⟩]
    rfl rfl (by decide)
  ⟨h.1, h.2.1⟩

/-- Every letter slot of the code alphabet lies in the uppercase range. -/
theorem letters_range : ∀ i : Fin 26,
    decide ('A' ≤ roomLetters.getD i.val 'A' ∧ roomLetters.getD i.val 'A' ≤ 'Z') = true := by
  decide

/-- Every digit slot of the code alphabet lies in the digit range. -/
theorem digits_range : ∀ i : Fin 10,
    decide ('0' ≤ roomDigits.getD i.val '0' ∧ roomDigits.getD i.val '0' ≤ '9') = true := by
  decide

/-- Every generated room code matches the two-letters-two-digits pattern. -/
theorem generateRoomCode_valid (r : RandPick) :
    isValidRoomCode (generateRoomCode r) = true := by
  show (decide _ && decide _ && decide _ && decide _) = true
  simp only [Bool.and_eq_true]
  exact ⟨⟨⟨letters_range r.l1, letters_range r.l2⟩, digits_range r.d1⟩, digits_range r.d2⟩

/-- The retry loop always holds the code produced by the generator call
numbered by its attempts counter. -/
theorem genLoop_code_eq (rooms : List String) (g : Nat → String) :
    ∀ f a, (genLoop rooms g (g a) a f).1 = g ((genLoop rooms g (g a) a f).2) := by
  intro f
  induction f with
  | zero => intro a; rfl
  | succ f ih =>
    intro a
    by_cases hc : rooms.contains (g a) = true
    · rw [genLoop, if_pos hc]
      exact ih (a + 1)
    · rw [genLoop, if_neg hc]

/-- When every candidate collides, the retry loop runs its full fuel. -/
theorem genLoop_all (rooms : List String) (g : Nat → String) :
    ∀ f a, (∀ i, a ≤ i → i < a + f → rooms.contains (g i) = true) →
      genLoop rooms g (g a) a f = (g (a + f), a + f) := by
  intro f
  induction f with
  | zero => intro a _; rfl
  | succ f ih =>
    intro a h
    have hc : rooms.contains (g a) = true := h a (Nat.le_refl a) (by omega)
    rw [genLoop, if_pos hc]
    have := ih (a + 1) (fun i h1 h2 => h i (by omega) (by omega))
    rw [this]
    have hn : a + 1 + f = a + (f + 1) := by omega
    rw [hn]

/-- The retry loop exits either on a collision-free code or with its fuel
fully consumed. -/
theorem genLoop_cases (rooms : List String) (g : Nat → String) :
    ∀ f a c, rooms.contains (genLoop rooms g c a f).1 = false
      ∨ (genLoop rooms g c a f).2 = a + f := by
  intro f
  induction f with
  | zero => intro a c; right; rfl
  | succ f ih =>
    intro a c
    by_cases hc : rooms.contains c = true
    · rw [genLoop, if_pos hc]
      rcases ih (a + 1) (g (a + 1)) with h | h
      · exact Or.inl h
      · right; rw [h]; omega
    · rw [genLoop, if_neg hc]
      exact Or.inl (Bool.of_not_eq_true hc)

/-- A collision-free candidate within the fuel window makes the retry loop
stop early. -/
theorem genLoop_exit (rooms : List String) (g : Nat → String) :
    ∀ f a, (∃ j, a ≤ j ∧ j < a + f ∧ rooms.contains (g j) = false) →
      (genLoop rooms g (g a) a f).2 < a + f := by
  intro f
  induction f with
  | zero =>
    intro a h
    obtain ⟨j, h1, h2, _⟩ := h
    omega
  | succ f ih =>
    intro a h
    obtain ⟨j, h1, h2, h3⟩ := h
    by_cases hc : rooms.contains (g a) = true
    · rw [genLoop, if_pos hc]
      have hja : j ≠ a := by
        intro he
        rw [he, hc] at h3
        exact Bool.noConfusion h3
      have := ih (a + 1) ⟨j, by omega, by omega, h3⟩
      omega
    · rw [genLoop, if_neg hc]
      omega

/-- Claim C8 (confirmed): with `g` the stream of generateRoomCode outputs,
every candidate matches the two-letters-two-digits pattern; a successful
createRoom returns a pattern-valid code that collides with no live room and
registers exactly that code; and createRoom fails with the
code-generation-exhausted error precisely when all maxAttempts candidates
examined by the retry loop collide with live rooms. -/
theorem createRoom_spec (rooms : List String) (rs : Nat → RandPick) (g : Nat → String)
    (hg : ∀ n, g n = generateRoomCode (rs n)) :
    (∀ n, isValidRoomCode (g n) = true)
      ∧ (∀ code rooms2,
          createRoom rooms g = .ok (code, rooms2) →
            isValidRoomCode code = true ∧ rooms.contains code = false
              ∧ rooms2 = code :: rooms)
      ∧ (createRoom rooms g = .error .codeGenerationExhausted
          ↔ ∀ i, i < maxAttempts → rooms.contains (g i) = true) := by
  refine ⟨fun n => by rw [hg n]; exact generateRoomCode_valid (rs n), ?_, ?_⟩
  · intro code rooms2 h
    unfold createRoom at h
    by_cases hge : maxAttempts ≤ (genLoop rooms g (g 0) 0 maxAttempts).2
    · rw [if_pos hge] at h
      exact absurd h (by simp)
    · rw [if_neg hge] at h
      simp only [Except.ok.injEq, Prod.mk.injEq] at h
      obtain ⟨hcode, hrooms2⟩ := h
      subst hcode
      subst hrooms2
      rcases genLoop_cases rooms g maxAttempts 0 (g 0) with hc | hc
      · refine ⟨?_, hc, rfl⟩
        rw [genLoop_code_eq rooms g maxAttempts 0, hg]
        exact generateRoomCode_valid _
      · exact absurd hc (by omega)
  · constructor
    · intro h i hi
      unfold createRoom at h
      by_cases hge : maxAttempts ≤ (genLoop rooms g (g 0) 0 maxAttempts).2
      · by_contra hcon
        have hfalse : rooms.contains (g i) = false := Bool.of_not_eq_true hcon
        have := genLoop_exit rooms g maxAttempts 0 ⟨i, Nat.zero_le i, by omega, hfalse⟩
        omega
      · rw [if_neg hge] at h
        exact absurd h (by simp)
    · intro h
      unfold createRoom
      rw [genLoop_all rooms g maxAttempts 0 (fun i _ h2 => h i (by omega))]
      simp

/-- Witness for C8: with an empty registry the constant candidate stream
yields a fresh valid code, and with that code already live every retry
collides, so createRoom reports code generation exhausted. -/
theorem createRoom_spec_witness :
    (isValidRoomCode (generateRoomCode ⟨0, 0, 0, 0⟩) = true
        ∧ List.contains ([] : List String) (generateRoomCode ⟨0, 0, 0, 0⟩) = false
        ∧ [generateRoomCode ⟨0, 0, 0, 0⟩] = generateRoomCode ⟨0, 0, 0, 0⟩ :: [])
      ∧ createRoom [generateRoomCode ⟨0, 0, 0, 0⟩]
          (fun _ => generateRoomCode ⟨0, 0, 0, 0⟩) = .error .codeGenerationExhausted :=
  ⟨(createRoom_spec [] (fun _ => ⟨0, 0, 0, 0⟩) (fun _ => generateRoomCode ⟨0, 0, 0, 0⟩)
      (fun _ => rfl)).2.1 (generateRoomCode ⟨0, 0, 0, 0⟩) [generateRoomCode ⟨0, 0, 0, 0⟩] rfl,
   (createRoom_spec [generateRoomCode ⟨0, 0, 0, 0⟩] (fun _ => ⟨0, 0, 0, 0⟩)
      (fun _ => generateRoomCode ⟨0, 0, 0, 0⟩) (fun _ => rfl)).2.2.mpr (fun _ _ => rfl)⟩

/-- A fresh element appended to a list none of whose elements matched is
what the search finds. -/
theorem find?_append_right_of_none {α : Type} (p : α → Bool) (l : List α) (x : α)
    (h : l.find? p = none) (hx : p x = true) : (l ++ [x]).find? p = some x := by
  induction l with
  | nil => simp [List.find?, hx]
  | cons y ys ih =>
    cases hy : p y with
    | true =>
      rw [List.find?_cons_of_pos _ hy] at h
      exact Option.noConfusion h
    | false =>
      rw [List.find?_cons_of_neg _ (by simp [hy])] at h
      rw [List.cons_append, List.find?_cons_of_neg _ (by simp [hy])]
      exact ih h

/-- Storing a room under a key that is present makes the lookup of that key
return the stored room. -/
theorem lookup_setRoom (rooms : List (String × Room)) (k : String) (room r : Room)
    (h : lookupRoom rooms k = some room) :
    lookupRoom (setRoom rooms k r) k = some r := by
  induction rooms with
  | nil => exact Option.noConfusion h
  | cons kr rest ih =>
    unfold lookupRoom at h
    unfold lookupRoom setRoom at ih ⊢
    by_cases hk : (kr.1 == k) = true
    · simp only [List.map_cons, if_pos hk]
      simp [List.find?, hk]
    · simp only [List.map_cons, if_neg hk]
      simp only [List.find?, hk] at h
      simp only [List.find?, hk]
      exact ih h

/-- Whenever addPlayer reports the player role with a color, the requesting
identity is stored among the room players with exactly that color. -/
theorem addPlayer_role_player (room room1 : Room) (pid nm : String) (spec : Bool)
    (now : Int) (c : Color)
    (h : room.addPlayer pid nm spec now = (room1, ⟨.player, some c⟩)) :
    ∃ q, room1.players.find? (fun p => p.id == pid) = some q ∧ q.color = c := by
  unfold Room.addPlayer at h
  simp only [Room.updateActivity] at h
  cases hf : room.players.find? (fun p => p.id == pid) with
  | some existing =>
    rw [hf] at h
    simp only [Prod.mk.injEq, JoinResult.mk.injEq, Option.some.injEq] at h
    obtain ⟨h1, -, h3⟩ := h
    refine ⟨existing, ?_, h3⟩
    rw [← h1]
    exact hf
  | none =>
    rw [hf] at h
    by_cases hs : room.spectators.contains pid = true
    · rw [if_pos hs] at h
      simp at h
    · rw [if_neg hs] at h
      by_cases hsp : spec = true
      · rw [if_pos hsp] at h
        simp at h
      · rw [if_neg hsp] at h
        by_cases hfull : room.maxPlayers ≤ room.players.length
        · rw [if_pos hfull] at h
          simp at h
        · rw [if_neg hfull] at h
          by_cases hz : (room.players.length == 0) = true
          · simp only [hz, if_true] at h
            simp only [Prod.mk.injEq, JoinResult.mk.injEq, Option.some.injEq] at h
            obtain ⟨h1, -, h3⟩ := h
            refine ⟨⟨pid, nm, Color.white, false⟩, ?_, h3⟩
            rw [← h1]
            split
            · exact find?_append_right_of_none _ room.players _ hf (by simp)
            · exact find?_append_right_of_none _ room.players _ hf (by simp)
          · simp only [Bool.not_eq_true] at hz
            simp only [hz, Bool.false_eq_true, if_false] at h
            simp only [Prod.mk.injEq, JoinResult.mk.injEq, Option.some.injEq] at h
            obtain ⟨h1, -, h3⟩ := h
            refine ⟨⟨pid, nm, Color.black, false⟩, ?_, h3⟩
            rw [← h1]
            split
            · exact find?_append_right_of_none _ room.players _ hf (by simp)
            · exact find?_append_right_of_none _ room.players _ hf (by simp)

/-- A second addPlayer by an identity already seated as a player only
refreshes the activity timestamp and reports the stored color. -/
theorem addPlayer_rejoin (room1 : Room) (pid nm2 : String) (spec2 : Bool) (now2 : Int)
    (q : RoomPlayer) (hq : room1.players.find? (fun p => p.id == pid) = some q) :
    room1.addPlayer pid nm2 spec2 now2
      = (room1.updateActivity now2, ⟨.player, some q.color⟩) := by
  unfold Room.addPlayer
  simp only [Room.updateActivity]
  rw [hq]

/-- Claim C9 (confirmed): when a joinRoom call seats an identity as a
player with some color, a repeated joinRoom by the same identity on the
same (still live) room succeeds with the same role and color — whatever
name or spectator flag it now carries — and the number of occupied player
slots does not change. -/
theorem joinRoom_rejoin_idempotent (rooms : List (String × Room))
    (code pid nm nm2 : String) (spec1 spec2 : Bool) (now1 now2 : Int)
    (room room1 : Room) (c : Color)
    (hlk : lookupRoom rooms (toUpperCode code) = some room)
    (hex1 : room.isExpired now1 = false)
    (hadd : room.addPlayer pid nm spec1 now1 = (room1, ⟨.player, some c⟩))
    (hex2 : room1.isExpired now2 = false) :
    joinRoom rooms code pid nm spec1 now1
        = (setRoom rooms (toUpperCode code) room1, .ok ⟨.player, some c⟩)
      ∧ joinRoom (setRoom rooms (toUpperCode code) room1) code pid nm2 spec2 now2
          = (setRoom (setRoom rooms (toUpperCode code) room1) (toUpperCode code)
              (room1.updateActivity now2), .ok ⟨.player, some c⟩)
      ∧ (room1.updateActivity now2).players.length = room1.players.length := by
  obtain ⟨q, hq, hqc⟩ := addPlayer_role_player room room1 pid nm spec1 now1 c hadd
  refine ⟨?_, ?_, rfl⟩
  · unfold joinRoom
    rw [hlk]
    simp only [hex1, Bool.false_eq_true, if_false, hadd]
  · unfold joinRoom
    rw [lookup_setRoom rooms (toUpperCode code) room room1 hlk]
    simp only [hex2, Bool.false_eq_true, if_false]
    rw [addPlayer_rejoin room1 pid nm2 spec2 now2 q hq, hqc]

/-- Concrete one-player room for the C9 witness. -/
def room0 : Room :=
  { code := "AB12", lastActivity := 0, expirationTime := 86400000,
    players := [⟨"a", "Alice", .white, false⟩], spectators := [],
    maxPlayers := 2, status := .waiting }

/-- Concrete room registry for the C9 witness. -/
def rooms0 : List (String × Room) := [("AB12", room0)]

/-- Witness for C9: Bob joins the concrete room (lower-case code) and gets
the black seat; joining again — even with a different display name and the
spectator flag set — returns player and black again and leaves the player
slot count unchanged. -/
theorem joinRoom_rejoin_idempotent_witness :
    joinRoom rooms0 "ab12" "b" "Bob" false 100
        = (setRoom rooms0 (toUpperCode "ab12") (room0.addPlayer "b" "Bob" false 100).1,
           .ok ⟨.player, some .black⟩)
      ∧ (joinRoom (setRoom rooms0 (toUpperCode "ab12")
            (room0.addPlayer "b" "Bob" false 100).1) "ab12" "b" "Bobby" true 200).2
          = .ok ⟨.player, some .black⟩
      ∧ ((room0.addPlayer "b" "Bob" false 100).1.updateActivity 200).players.length
          = (room0.addPlayer "b" "Bob" false 100).1.players.length :=
  let h := joinRoom_rejoin_idempotent rooms0 "ab12" "b" "Bob" "Bobby" false true 100 200
    room0 (room0.addPlayer "b" "Bob" false 100).1 Color.black (by decide) (by decide)
    (by decide) (by decide)
  ⟨h.1, by rw [h.2.1], h.2.2⟩

end ChessV4
